import Mathlib

/-!
Verification of the dikto capture-to-transcript pipeline.

Shallow embedding of the core pipeline of the `dikto` repository:

* `crates/sotto-core/src/vad.rs` — the `VadProcessor` endpointing state
  machine (`process_chunk`, `reset`);
* `crates/dikto-core/src/engine.rs` — the `AsrSession` buffering logic
  (`feed_samples`, `flush`, `is_hallucination`);
* `crates/dikto-core/src/lib.rs` — the background session thread spawned by
  `DiktoEngine::start_listening` and the pre-speech ring buffer of
  `run_pipeline`.

Modelling conventions:

* `f32` audio samples are carried opaquely; no arithmetic is ever performed
  on sample values in the embedded code, so samples are modelled as `ℚ`.
* Speech probabilities and the speech threshold are `f32` in the source,
  compared with a strict `>`; they are modelled as `ℚ`, whose total order
  mirrors the order of non-NaN floats.
* `u32` counters are modelled as `Nat` reduced modulo `2^32` wherever the
  source performs `u32` arithmetic (release-mode wrapping semantics).
* The Silero VAD detector is an external collaborator (an ONNX model); the
  per-chunk speech probability it produces is an input of `processChunk`.
-/

namespace Dikto

/-- `2^32`, the modulus of Rust `u32` arithmetic. -/
def U32MOD : Nat := 4294967296

/-! ## VAD state machine (`crates/sotto-core/src/vad.rs`) -/

/-- Events emitted by the VAD processor (`enum VadEvent`). -/
inductive VadEvent where
  | SpeechStart
  | SpeechContinue
  | SpeechEnd
  | Silence
  deriving DecidableEq, Repr

/-- Internal gate state (`enum VadState`). -/
inductive VadState where
  | Idle
  | Speaking
  deriving DecidableEq, Repr

/-- Configuration for VAD processing (`struct VadConfig`).
`speech_threshold` is `f32` in the source, modelled as `ℚ`. -/
structure VadConfig where
  speech_threshold : ℚ
  silence_duration_ms : Nat
  min_speech_duration_ms : Nat
  sample_rate : Nat
  deriving DecidableEq, Repr

/-- `VadConfig::default()` (`speech_threshold` is `0.5`). -/
def VadConfig.default : VadConfig :=
  { speech_threshold := mkRat 1 2
    silence_duration_ms := 1500
    min_speech_duration_ms := 250
    sample_rate := 16000 }

/-- The `VadProcessor` struct, minus the external `detector` field (the
detector's output probability is instead an input of `processChunk`). -/
structure VadProcessor where
  config : VadConfig
  state : VadState
  /-- Number of consecutive silence frames after speech (`u32`). -/
  silence_frames : Nat
  /-- Number of speech frames since speech started (`u32`). -/
  speech_frames : Nat
  /-- Samples per chunk (512 for 16kHz = 32ms). -/
  chunk_size : Nat
  deriving DecidableEq, Repr

/-- `VadProcessor::new`: always sets `chunk_size = 512` and starts `Idle`
with both counters zeroed.  The fallible detector construction is external
and omitted. -/
def VadProcessor.new (config : VadConfig) : VadProcessor :=
  { config := config
    state := VadState.Idle
    silence_frames := 0
    speech_frames := 0
    chunk_size := 512 }

/-- `(self.chunk_size as f32 / self.config.sample_rate as f32 * 1000.0) as u32`.
The source computes this in `f32` and truncates; for the supported rate
16000 with chunk size 512 both the `f32` computation and this exact
truncated division give 32. -/
def VadProcessor.frameDurationMs (p : VadProcessor) : Nat :=
  p.chunk_size * 1000 / p.config.sample_rate

/-- `VadProcessor::process_chunk`, with the detector's probability for the
chunk passed in.  Returns the emitted event and the updated processor. -/
def VadProcessor.processChunk (p : VadProcessor) (probability : ℚ) :
    VadEvent × VadProcessor :=
  let is_speech : Bool := p.config.speech_threshold < probability
  let frame_duration_ms := p.frameDurationMs
  match p.state, is_speech with
  | VadState.Idle, true =>
      (VadEvent.SpeechStart,
       { p with state := VadState.Speaking, speech_frames := 1, silence_frames := 0 })
  | VadState.Idle, false => (VadEvent.Silence, p)
  | VadState.Speaking, true =>
      (VadEvent.SpeechContinue,
       { p with speech_frames := (p.speech_frames + 1) % U32MOD, silence_frames := 0 })
  | VadState.Speaking, false =>
      let sf := (p.silence_frames + 1) % U32MOD
      let silence_ms := sf * frame_duration_ms % U32MOD
      if p.config.silence_duration_ms ≤ silence_ms then
        let speech_ms := p.speech_frames * frame_duration_ms % U32MOD
        let valid := p.config.min_speech_duration_ms ≤ speech_ms
        let p' := { p with state := VadState.Idle, speech_frames := 0, silence_frames := 0 }
        if valid then (VadEvent.SpeechEnd, p') else (VadEvent.Silence, p')
      else
        (VadEvent.SpeechContinue, { p with silence_frames := sf })

/-- `VadProcessor::reset`. -/
def VadProcessor.reset (p : VadProcessor) : VadProcessor :=
  { p with state := VadState.Idle, silence_frames := 0, speech_frames := 0 }

/-- Feed a sequence of chunks (given by their detector probabilities),
collecting the emitted events and the final processor. -/
def VadProcessor.processSeq (p : VadProcessor) (probs : List ℚ) :
    List VadEvent × VadProcessor :=
  match probs with
  | [] => ([], p)
  | q :: rest =>
      let step := p.processChunk q
      let tail := step.2.processSeq rest
      (step.1 :: tail.1, tail.2)

/-! ### Step lemmas for `processChunk`, one per row of the transition table -/

theorem VadProcessor.processChunk_idle_speech (p : VadProcessor) (q : ℚ)
    (hst : p.state = VadState.Idle) (hq : p.config.speech_threshold < q) :
    p.processChunk q =
      (VadEvent.SpeechStart,
       { p with state := VadState.Speaking, speech_frames := 1, silence_frames := 0 }) := by
  unfold processChunk
  rw [hst]
  simp [hq]

theorem VadProcessor.processChunk_idle_silence (p : VadProcessor) (q : ℚ)
    (hst : p.state = VadState.Idle) (hq : ¬ p.config.speech_threshold < q) :
    p.processChunk q = (VadEvent.Silence, p) := by
  unfold processChunk
  rw [hst]
  simp [hq]

theorem VadProcessor.processChunk_speaking_speech (p : VadProcessor) (q : ℚ)
    (hst : p.state = VadState.Speaking) (hq : p.config.speech_threshold < q) :
    p.processChunk q =
      (VadEvent.SpeechContinue,
       { p with speech_frames := (p.speech_frames + 1) % U32MOD, silence_frames := 0 }) := by
  unfold processChunk
  rw [hst]
  simp [hq]

theorem VadProcessor.processChunk_speaking_silence_grace (p : VadProcessor) (q : ℚ)
    (hst : p.state = VadState.Speaking) (hq : ¬ p.config.speech_threshold < q)
    (hsil : (p.silence_frames + 1) * p.frameDurationMs % U32MOD
              < p.config.silence_duration_ms) :
    p.processChunk q =
      (VadEvent.SpeechContinue,
       { p with silence_frames := (p.silence_frames + 1) % U32MOD }) := by
  unfold processChunk
  rw [hst]
  simp [hq, Nat.not_le.mpr hsil]

theorem VadProcessor.processChunk_speaking_silence_end (p : VadProcessor) (q : ℚ)
    (hst : p.state = VadState.Speaking) (hq : ¬ p.config.speech_threshold < q)
    (hsil : p.config.silence_duration_ms
              ≤ (p.silence_frames + 1) * p.frameDurationMs % U32MOD) :
    p.processChunk q =
      (if p.config.min_speech_duration_ms ≤ p.speech_frames * p.frameDurationMs % U32MOD
        then VadEvent.SpeechEnd else VadEvent.Silence,
       { p with state := VadState.Idle, speech_frames := 0, silence_frames := 0 }) := by
  unfold processChunk
  rw [hst]
  by_cases hv : p.config.min_speech_duration_ms ≤ p.speech_frames * p.frameDurationMs % U32MOD <;>
    simp [hq, hsil, hv]

/-! ### Run lemmas for `processSeq` -/

theorem VadProcessor.processSeq_append (p : VadProcessor) (xs ys : List ℚ) :
    p.processSeq (xs ++ ys) =
      ((p.processSeq xs).1 ++ ((p.processSeq xs).2.processSeq ys).1,
       ((p.processSeq xs).2.processSeq ys).2) := by
  induction xs generalizing p with
  | nil => simp [processSeq]
  | cons x xs ih => simp [processSeq, ih]

/-- A run of above-threshold chunks (with arbitrary per-chunk
probabilities) while `Speaking` emits one `SpeechContinue` per chunk and
adds the run length to the speech-frame counter. -/
theorem VadProcessor.processSeq_speech_run (p : VadProcessor) (his : List ℚ)
    (hst : p.state = VadState.Speaking) (hzero : p.silence_frames = 0)
    (hhi : ∀ q ∈ his, p.config.speech_threshold < q)
    (hover : p.speech_frames + his.length < U32MOD) :
    p.processSeq his =
      (List.replicate his.length VadEvent.SpeechContinue,
       { p with speech_frames := p.speech_frames + his.length,
                silence_frames := 0 }) := by
  induction his generalizing p with
  | nil =>
      obtain ⟨cfg, st, sf, spf, cs⟩ := p
      simp only at hzero
      subst hzero
      simp [processSeq]
  | cons q his ih =>
      simp only [List.length_cons] at hover
      have hstep := p.processChunk_speaking_speech q hst (hhi q (by simp))
      have h1 : (p.speech_frames + 1) % U32MOD = p.speech_frames + 1 :=
        Nat.mod_eq_of_lt (by omega)
      simp only [processSeq, hstep, h1]
      rw [ih { p with speech_frames := p.speech_frames + 1, silence_frames := 0 }
          hst rfl (fun r hr => hhi r (by simp [hr]))
          (by show p.speech_frames + 1 + his.length < U32MOD; omega)]
      simp [List.replicate_succ, Nat.add_assoc, Nat.add_comm 1 his.length]

/-- A run of at-or-below-threshold chunks (arbitrary per-chunk
probabilities) while `Speaking`, all inside the grace period, emits one
`SpeechContinue` per chunk and adds the run length to the silence-frame
counter. -/
theorem VadProcessor.processSeq_silence_grace_run (p : VadProcessor) (los : List ℚ)
    (hst : p.state = VadState.Speaking)
    (hlo : ∀ q ∈ los, ¬ p.config.speech_threshold < q)
    (hover : p.silence_frames + los.length < U32MOD)
    (hfit : (p.silence_frames + los.length) * p.frameDurationMs
              < p.config.silence_duration_ms) :
    p.processSeq los =
      (List.replicate los.length VadEvent.SpeechContinue,
       { p with silence_frames := p.silence_frames + los.length }) := by
  induction los generalizing p with
  | nil => simp [processSeq]
  | cons q los ih =>
      simp only [List.length_cons] at hover hfit
      have hle : (p.silence_frames + 1) * p.frameDurationMs
          ≤ (p.silence_frames + (los.length + 1)) * p.frameDurationMs :=
        Nat.mul_le_mul_right _ (by omega)
      have hstep := p.processChunk_speaking_silence_grace q hst (hlo q (by simp))
        (lt_of_le_of_lt (le_trans (Nat.mod_le _ _) hle) hfit)
      have h1 : (p.silence_frames + 1) % U32MOD = p.silence_frames + 1 :=
        Nat.mod_eq_of_lt (by omega)
      simp only [processSeq, hstep, h1]
      rw [ih { p with silence_frames := p.silence_frames + 1 }
          hst (fun r hr => hlo r (by simp [hr]))
          (by show p.silence_frames + 1 + los.length < U32MOD; omega)
          (by show (p.silence_frames + 1 + los.length) * p.frameDurationMs
                < p.config.silence_duration_ms
              rwa [show p.silence_frames + 1 + los.length
                  = p.silence_frames + (los.length + 1) from by omega])]
      simp [List.replicate_succ, Nat.add_assoc, Nat.add_comm 1 los.length]

set_option maxRecDepth 8000

/-- C1 (amended): a full speech episode — from `Idle`, a sequence of `N ≥ 1`
chunks each with probability above the threshold followed by `M` chunks each
at or below the threshold, `M` minimal with `M·frame_ms ≥
silence_duration_ms` and with `N·frame_ms ≥ min_speech_duration_ms` — emits
exactly one `SpeechStart`, then `(N−1)+(M−1)` `SpeechContinue` (the `M−1`
grace-period silence chunks also emit `SpeechContinue`), then exactly one
`SpeechEnd`, and nothing else. -/
theorem vad_full_episode_events (p : VadProcessor) (his los : List ℚ)
    (hst : p.state = VadState.Idle)
    (hhi : ∀ q ∈ his, p.config.speech_threshold < q)
    (hlo : ∀ q ∈ los, q ≤ p.config.speech_threshold)
    (hN : 1 ≤ his.length)
    (hmin : p.config.min_speech_duration_ms ≤ his.length * p.frameDurationMs)
    (hdur : p.config.silence_duration_ms ≤ los.length * p.frameDurationMs)
    (hMmin : (los.length - 1) * p.frameDurationMs < p.config.silence_duration_ms)
    (hNover : his.length * p.frameDurationMs < U32MOD)
    (hMover : los.length * p.frameDurationMs < U32MOD) :
    (p.processSeq (his ++ los)).1 =
      VadEvent.SpeechStart ::
        (List.replicate (his.length - 1 + (los.length - 1)) VadEvent.SpeechContinue
          ++ [VadEvent.SpeechEnd]) := by
  have hframe : 1 ≤ p.frameDurationMs := by
    rcases Nat.eq_zero_or_pos p.frameDurationMs with h0 | h
    · rw [h0] at hdur hMmin
      simp at hdur hMmin
      omega
    · exact h
  have hM : 1 ≤ los.length := by
    rcases Nat.eq_zero_or_pos los.length with h0 | h
    · rw [h0] at hdur hMmin
      simp at hdur hMmin
      omega
    · exact h
  obtain ⟨q0, his', rfl⟩ : ∃ q0 his', his = q0 :: his' := by
    cases his with
    | nil => simp at hN
    | cons a l => exact ⟨a, l, rfl⟩
  rcases List.eq_nil_or_concat los with hnil | ⟨los', lN, rfl⟩
  · rw [hnil] at hM
    simp at hM
  simp only [List.concat_eq_append] at hlo hdur hMmin hMover ⊢
  simp only [List.length_cons, List.length_append, List.length_nil, Nat.zero_add,
    Nat.add_sub_cancel] at hmin hdur hMmin hNover hMover ⊢
  have hNle : his'.length + 1 ≤ (his'.length + 1) * p.frameDurationMs := by
    have h := Nat.mul_le_mul_left (his'.length + 1) hframe
    rwa [Nat.mul_one] at h
  have hMle : los'.length + 1 ≤ (los'.length + 1) * p.frameDurationMs := by
    have h := Nat.mul_le_mul_left (los'.length + 1) hframe
    rwa [Nat.mul_one] at h
  -- Chunk 1: Idle + speech ⇒ SpeechStart
  rw [List.cons_append]
  have hstep1 := p.processChunk_idle_speech q0 hst (hhi q0 (by simp))
  simp only [VadProcessor.processSeq, hstep1]
  -- Chunks 2..N: SpeechContinue while speaking
  rw [VadProcessor.processSeq_append]
  rw [VadProcessor.processSeq_speech_run
      { p with state := VadState.Speaking, speech_frames := 1, silence_frames := 0 }
      his' rfl rfl (fun r hr => hhi r (by simp [hr]))
      (by show 1 + his'.length < U32MOD; omega)]
  -- Chunks N+1..N+M−1: grace-period SpeechContinue
  rw [VadProcessor.processSeq_append]
  rw [VadProcessor.processSeq_silence_grace_run
      { p with state := VadState.Speaking, speech_frames := 1 + his'.length,
               silence_frames := 0 }
      los' rfl (fun r hr => not_lt.mpr (hlo r (by simp [hr])))
      (by show 0 + los'.length < U32MOD; omega)
      (by show (0 + los'.length) * p.frameDurationMs < p.config.silence_duration_ms
          simpa using hMmin)]
  -- Chunk N+M: the silence threshold is reached and the episode is valid
  have hend := VadProcessor.processChunk_speaking_silence_end
      { p with state := VadState.Speaking, speech_frames := 1 + his'.length,
               silence_frames := 0 + los'.length }
      lN rfl (not_lt.mpr (hlo lN (by simp)))
      (by show p.config.silence_duration_ms
            ≤ (0 + los'.length + 1) * p.frameDurationMs % U32MOD
          rw [Nat.zero_add, Nat.mod_eq_of_lt hMover]
          exact hdur)
  rw [if_pos (by
        show p.config.min_speech_duration_ms
          ≤ (1 + his'.length) * p.frameDurationMs % U32MOD
        rw [Nat.add_comm 1 his'.length, Nat.mod_eq_of_lt hNover]
        exact hmin)] at hend
  rw [show ∀ pr : VadProcessor,
        pr.processSeq [lN] = ((pr.processChunk lN).1 :: [], (pr.processChunk lN).2)
        from fun pr => rfl]
  rw [hend]
  show VadEvent.SpeechStart ::
      (List.replicate his'.length VadEvent.SpeechContinue ++
        (List.replicate los'.length VadEvent.SpeechContinue ++ [VadEvent.SpeechEnd])) =
    VadEvent.SpeechStart ::
      (List.replicate (his'.length + los'.length) VadEvent.SpeechContinue
        ++ [VadEvent.SpeechEnd])
  rw [List.replicate_add, List.append_assoc]

/-- A small test configuration: threshold 0.5, 64 ms silence window
(two 32 ms frames at 16 kHz), 32 ms minimum speech. -/
def cfgW : VadConfig :=
  { speech_threshold := mkRat 1 2
    silence_duration_ms := 64
    min_speech_duration_ms := 32
    sample_rate := 16000 }

/-- A gate mid-episode: `Speaking` with 2 speech frames and 1 silence frame. -/
def gateW : VadProcessor :=
  { config := cfgW
    state := VadState.Speaking
    silence_frames := 1
    speech_frames := 2
    chunk_size := 512 }

/-- C1 counterexample: under `cfgW` (frame = 32 ms, silence window 64 ms),
one above-threshold chunk (`N = 1`, and `N·frame = 32 ≥ 32 =
min_speech_duration_ms`) followed by exactly enough silence chunks to reach
`silence_duration_ms` (`M = 2`) emits
`[SpeechStart, SpeechContinue, SpeechEnd]` — the first silence chunk is in
the grace period and emits `SpeechContinue` — not the
`[SpeechStart, SpeechEnd]` (one `SpeechStart`, `N−1 = 0` `SpeechContinue`,
one `SpeechEnd`, nothing else) that the claim predicts. -/
theorem vad_full_episode_extra_continue_cex :
    ((VadProcessor.new cfgW).processSeq [1, 0, 0]).1 =
      [VadEvent.SpeechStart, VadEvent.SpeechContinue, VadEvent.SpeechEnd] ∧
    ((VadProcessor.new cfgW).processSeq [1, 0, 0]).1 ≠
      VadEvent.SpeechStart ::
        (List.replicate (1 - 1) VadEvent.SpeechContinue ++ [VadEvent.SpeechEnd]) ∧
    cfgW.speech_threshold < 1 ∧ (0:ℚ) ≤ cfgW.speech_threshold ∧
    cfgW.min_speech_duration_ms ≤ 1 * (VadProcessor.new cfgW).frameDurationMs ∧
    cfgW.silence_duration_ms ≤ 2 * (VadProcessor.new cfgW).frameDurationMs ∧
    (2 - 1) * (VadProcessor.new cfgW).frameDurationMs < cfgW.silence_duration_ms := by
  decide

/-- Witness for `vad_full_episode_events` at `cfgW` with a non-uniform
episode: speech probabilities `[0.9, 0.7]` (both above the 0.5 threshold)
then silence probabilities `[0.1, 0.2]` (both at or below it) give
`SpeechStart, SpeechContinue, SpeechContinue, SpeechEnd`. -/
theorem vad_full_episode_events_witness :
    (VadProcessor.new cfgW).state = VadState.Idle ∧
    (∀ q ∈ [mkRat 9 10, mkRat 7 10],
      (VadProcessor.new cfgW).config.speech_threshold < q) ∧
    (∀ q ∈ [mkRat 1 10, mkRat 2 10],
      q ≤ (VadProcessor.new cfgW).config.speech_threshold) ∧
    1 ≤ [mkRat 9 10, mkRat 7 10].length ∧
    (VadProcessor.new cfgW).config.min_speech_duration_ms
      ≤ [mkRat 9 10, mkRat 7 10].length * (VadProcessor.new cfgW).frameDurationMs ∧
    (VadProcessor.new cfgW).config.silence_duration_ms
      ≤ [mkRat 1 10, mkRat 2 10].length * (VadProcessor.new cfgW).frameDurationMs ∧
    ([mkRat 1 10, mkRat 2 10].length - 1) * (VadProcessor.new cfgW).frameDurationMs
      < (VadProcessor.new cfgW).config.silence_duration_ms ∧
    [mkRat 9 10, mkRat 7 10].length * (VadProcessor.new cfgW).frameDurationMs < U32MOD ∧
    [mkRat 1 10, mkRat 2 10].length * (VadProcessor.new cfgW).frameDurationMs < U32MOD ∧
    ((VadProcessor.new cfgW).processSeq
        ([mkRat 9 10, mkRat 7 10] ++ [mkRat 1 10, mkRat 2 10])).1 =
      VadEvent.SpeechStart ::
        (List.replicate
            ([mkRat 9 10, mkRat 7 10].length - 1 + ([mkRat 1 10, mkRat 2 10].length - 1))
            VadEvent.SpeechContinue
          ++ [VadEvent.SpeechEnd]) :=
  ⟨rfl, by decide, by decide, by decide, by decide, by decide, by decide, by decide,
   by decide,
   vad_full_episode_events (VadProcessor.new cfgW)
     [mkRat 9 10, mkRat 7 10] [mkRat 1 10, mkRat 2 10] rfl (by decide) (by decide)
     (by decide) (by decide) (by decide) (by decide) (by decide) (by decide)⟩

/-- C2: while `Speaking`, a chunk at or below the threshold increments the
silence-frame counter; if the accumulated silence has reached
`silence_duration_ms` the gate goes `Idle` and emits `SpeechEnd` when the
accumulated speech duration meets `min_speech_duration_ms` and `Silence`
when it does not; otherwise the gate stays `Speaking` (only the silence
counter changed) and emits `SpeechContinue`. -/
theorem vad_speaking_silence_step (p : VadProcessor) (q : ℚ)
    (hst : p.state = VadState.Speaking)
    (hq : q ≤ p.config.speech_threshold) :
    (p.config.silence_duration_ms
        ≤ (p.silence_frames + 1) % U32MOD * p.frameDurationMs % U32MOD →
      ((p.config.min_speech_duration_ms
            ≤ p.speech_frames * p.frameDurationMs % U32MOD →
          p.processChunk q = (VadEvent.SpeechEnd,
            { p with state := VadState.Idle, speech_frames := 0, silence_frames := 0 })) ∧
       (p.speech_frames * p.frameDurationMs % U32MOD
            < p.config.min_speech_duration_ms →
          p.processChunk q = (VadEvent.Silence,
            { p with state := VadState.Idle, speech_frames := 0, silence_frames := 0 })))) ∧
    ((p.silence_frames + 1) % U32MOD * p.frameDurationMs % U32MOD
        < p.config.silence_duration_ms →
      p.processChunk q = (VadEvent.SpeechContinue,
        { p with silence_frames := (p.silence_frames + 1) % U32MOD })) := by
  have hq' : ¬ p.config.speech_threshold < q := not_lt.mpr hq
  constructor
  · intro hsil
    rw [Nat.mod_mul_mod] at hsil
    constructor
    · intro hv
      rw [p.processChunk_speaking_silence_end q hst hq' hsil, if_pos hv]
    · intro hv
      rw [p.processChunk_speaking_silence_end q hst hq' hsil, if_neg (not_le.mpr hv)]
  · intro hsil
    rw [Nat.mod_mul_mod] at hsil
    exact p.processChunk_speaking_silence_grace q hst hq' hsil

/-- Witness for `vad_speaking_silence_step` at `gateW` fed probability 0:
the second silence frame reaches the 64 ms window and the 2 speech frames
meet the 32 ms minimum, so the chunk emits `SpeechEnd` and resets the
gate. -/
theorem vad_speaking_silence_step_witness :
    gateW.state = VadState.Speaking ∧
    (0:ℚ) ≤ gateW.config.speech_threshold ∧
    gateW.processChunk 0 = (VadEvent.SpeechEnd,
      { gateW with state := VadState.Idle, speech_frames := 0, silence_frames := 0 }) :=
  ⟨rfl, by decide,
   ((vad_speaking_silence_step gateW 0 rfl (by decide)).1 (by decide)).1 (by decide)⟩

/-- C8: `reset()` forces `Idle` with both counters zeroed, and a reset gate
fed any sequence of silence chunks produces the same events and the same
final state as a freshly constructed gate with the same configuration. -/
theorem vad_reset_behaves_like_fresh (p : VadProcessor) (probs : List ℚ)
    (hchunk : p.chunk_size = 512)
    (hsilence : ∀ q ∈ probs, q ≤ p.config.speech_threshold) :
    p.reset.processSeq probs = (VadProcessor.new p.config).processSeq probs ∧
    p.reset.state = VadState.Idle ∧
    p.reset.speech_frames = 0 ∧
    p.reset.silence_frames = 0 := by
  have hfresh : p.reset = VadProcessor.new p.config := by
    obtain ⟨cfg, st, sf, spf, cs⟩ := p
    simp only at hchunk
    subst hchunk
    rfl
  rw [hfresh]
  exact ⟨rfl, rfl, rfl, rfl⟩

/-- Witness for `vad_reset_behaves_like_fresh` at the mid-episode gate
`gateW` and two silence chunks. -/
theorem vad_reset_behaves_like_fresh_witness :
    gateW.chunk_size = 512 ∧
    (∀ q ∈ [(0:ℚ), 0], q ≤ gateW.config.speech_threshold) ∧
    gateW.reset.processSeq [0, 0] =
      (VadProcessor.new gateW.config).processSeq [0, 0] :=
  ⟨rfl, by decide,
   (vad_reset_behaves_like_fresh gateW [0, 0] rfl (by decide)).1⟩

/-! ## ASR session (`crates/dikto-core/src/engine.rs`)

Strings are Unicode in both Rust and Lean; Rust's `str::trim` and
`str::to_lowercase` are modelled over `List Char` with ASCII whitespace and
ASCII case folding (every string they are compared against — the
hallucination token list — is ASCII). -/

/-- ASCII whitespace test used by the `str::trim` model. -/
def isWhitespaceChar (c : Char) : Bool :=
  c = ' ' || c = '\t' || c = '\n' || c = '\r'

/-- `str::trim`: strip leading and trailing whitespace. -/
def trimChars (s : List Char) : List Char :=
  List.rdropWhile isWhitespaceChar (List.dropWhile isWhitespaceChar s)

/-- `str::trim` on a `String`. -/
def strTrim (s : String) : String := ⟨trimChars s.data⟩

/-- ASCII lowercasing of one character. -/
def lowerChar (c : Char) : Char :=
  if 'A' ≤ c && c ≤ 'Z' then Char.ofNat (c.toNat + 32) else c

/-- `str::to_lowercase` (ASCII model). -/
def strToLower (s : String) : String := ⟨s.data.map lowerChar⟩

/-- The fixed hallucination vocabulary of `is_hallucination`. -/
def hallucinationTokens : List String :=
  ["[blank_audio]", "[music]", "[inaudible]", "[silence]", "[no speech]",
   "[applause]", "[laughter]", "(music)", "(silence)", "(laughter)",
   "(applause)", "(no speech)", "(blank audio)"]

/-- `is_hallucination`: true iff the trimmed, lowercased text is an exact
full-string member of the fixed token list. -/
def is_hallucination (text : String) : Bool :=
  let t := strToLower (strTrim text)
  hallucinationTokens.contains t

/-- `struct TranscriptSegment`. -/
structure TranscriptSegment where
  text : String
  is_final : Bool
  deriving DecidableEq, Repr

/-- `enum TranscribeError`. -/
inductive TranscribeError where
  | ModelLoad (msg : String)
  | Inference (msg : String)
  | NotLoaded
  deriving DecidableEq, Repr

/-- `struct AsrSession`: accumulated 16 kHz mono samples plus the session
language. -/
structure AsrSession where
  audio_buffer : List ℚ
  language : String
  deriving DecidableEq, Repr

/-- `AsrSession::feed_samples`: append and report no segments. -/
def AsrSession.feed_samples (s : AsrSession) (samples : List ℚ) :
    List TranscriptSegment × AsrSession :=
  ([], { s with audio_buffer := s.audio_buffer ++ samples })

/-- `const MAX_SAMPLES: usize = 4 * 60 * 16000` — the 4-minute cap. -/
def MAX_SAMPLES : Nat := 4 * 60 * 16000

/-- The `Arc<Mutex<Option<LoadedEngine>>>` holder as observed by one `flush`
call: the lock may be poisoned, or held open with no engine loaded, or hold
a loaded backend modelled by its `transcribe` function (receiving the audio
buffer and, for Whisper, the session language). -/
inductive EngineHolder where
  | poisoned (msg : String)
  | empty
  | loaded (transcribe : List ℚ → String → Except TranscribeError String)

/-- The buffer-cap step of `flush`: `Vec::truncate(MAX_SAMPLES)` keeps the
earliest `MAX_SAMPLES` samples when the buffer is longer. -/
def truncatedBuffer (buffer : List ℚ) : List ℚ :=
  if buffer.length > MAX_SAMPLES then buffer.take MAX_SAMPLES else buffer

/-- `AsrSession::flush`: empty-buffer early return; truncate to the 4-minute
cap; acquire the engine; run inference; clear the buffer only after a
successful inference; trim the text and drop it when empty or a
hallucination token, otherwise emit one final segment. -/
def AsrSession.flush (s : AsrSession) (engine : EngineHolder) :
    Except TranscribeError (List TranscriptSegment) × AsrSession :=
  if s.audio_buffer.isEmpty then
    (Except.ok [], s)
  else
    let buffer := truncatedBuffer s.audio_buffer
    let s1 : AsrSession := { s with audio_buffer := buffer }
    match engine with
    | EngineHolder.poisoned msg =>
        (Except.error (TranscribeError.Inference ("Lock poisoned: " ++ msg)), s1)
    | EngineHolder.empty =>
        (Except.error TranscribeError.NotLoaded, s1)
    | EngineHolder.loaded transcribe =>
        match transcribe buffer s1.language with
        | Except.error e => (Except.error e, s1)
        | Except.ok raw =>
            let s2 : AsrSession := { s1 with audio_buffer := [] }
            let text := strTrim raw
            if text = "" || is_hallucination text then
              (Except.ok [], s2)
            else
              (Except.ok [{ text := text, is_final := true }], s2)

/-- `AsrSession::buffer_duration_secs` numerator: the sample count (the
source divides by 16000.0 in `f32` for UI display). -/
def AsrSession.bufferLen (s : AsrSession) : Nat := s.audio_buffer.length

/-! ### Trim is idempotent (needed because `is_hallucination` re-trims) -/

theorem trimChars_idem (s : List Char) : trimChars (trimChars s) = trimChars s := by
  unfold trimChars
  have h1 : List.dropWhile isWhitespaceChar
      (List.rdropWhile isWhitespaceChar (List.dropWhile isWhitespaceChar s)) =
      List.rdropWhile isWhitespaceChar (List.dropWhile isWhitespaceChar s) := by
    rw [List.dropWhile_eq_self_iff]
    intro hl
    have hpre : List.rdropWhile isWhitespaceChar (List.dropWhile isWhitespaceChar s)
        <+: List.dropWhile isWhitespaceChar s :=
      List.rdropWhile_prefix _ _
    have hlen : 0 < (List.dropWhile isWhitespaceChar s).length :=
      lt_of_lt_of_le hl hpre.length_le
    have hget := hpre.getElem hl
    simp only [List.get_eq_getElem, hget]
    exact List.dropWhile_get_zero_not isWhitespaceChar s hlen
  rw [h1, List.rdropWhile_idempotent]

theorem strTrim_idem (s : String) : strTrim (strTrim s) = strTrim s := by
  simp [strTrim, trimChars_idem]

/-! ### Buffer-cap lemmas -/

theorem truncatedBuffer_length (b : List ℚ) :
    (truncatedBuffer b).length = min b.length MAX_SAMPLES := by
  unfold truncatedBuffer
  split
  · simp [List.length_take, Nat.min_comm]
  · simp
    omega

theorem truncatedBuffer_of_le (b : List ℚ) (h : b.length ≤ MAX_SAMPLES) :
    truncatedBuffer b = b := by
  unfold truncatedBuffer
  rw [if_neg (by omega)]

theorem truncatedBuffer_idem (b : List ℚ) :
    truncatedBuffer (truncatedBuffer b) = truncatedBuffer b :=
  truncatedBuffer_of_le _ (by rw [truncatedBuffer_length]; omega)

theorem truncatedBuffer_ne_nil (b : List ℚ) (h : b ≠ []) :
    truncatedBuffer b ≠ [] := by
  intro hnil
  have hlen := truncatedBuffer_length b
  rw [hnil] at hlen
  simp [MAX_SAMPLES] at hlen
  exact h (List.length_eq_zero.mp (by omega))

/-- Unfolding of `flush` on a nonempty buffer with a loaded backend that
succeeds. -/
theorem AsrSession.flush_loaded_ok (buffer : List ℚ) (lang raw : String)
    (f : List ℚ → String → Except TranscribeError String)
    (hne : buffer ≠ []) (hf : f (truncatedBuffer buffer) lang = Except.ok raw) :
    AsrSession.flush ⟨buffer, lang⟩ (EngineHolder.loaded f) =
      (if strTrim raw = "" || is_hallucination (strTrim raw) then Except.ok []
       else Except.ok [{ text := strTrim raw, is_final := true }],
       ⟨[], lang⟩) := by
  unfold flush
  rw [if_neg (by simpa using hne)]
  simp only [hf]
  split <;> rfl

/-- C3: for every backend output text, `flush` reports zero segments iff the
trimmed text is empty or, lowercased, is an exact full-string member of the
fixed hallucination token list; otherwise it reports exactly one final
segment carrying the trimmed text. -/
theorem asr_flush_filters_hallucinations (buffer : List ℚ) (lang raw : String)
    (hne : buffer ≠ []) :
    ((strTrim raw = "" ∨
        hallucinationTokens.contains (strToLower (strTrim raw)) = true) →
      AsrSession.flush ⟨buffer, lang⟩
          (EngineHolder.loaded fun _ _ => Except.ok raw) =
        (Except.ok [], ⟨[], lang⟩)) ∧
    (strTrim raw ≠ "" →
      hallucinationTokens.contains (strToLower (strTrim raw)) = false →
      AsrSession.flush ⟨buffer, lang⟩
          (EngineHolder.loaded fun _ _ => Except.ok raw) =
        (Except.ok [{ text := strTrim raw, is_final := true }], ⟨[], lang⟩)) := by
  have hkey : is_hallucination (strTrim raw) =
      hallucinationTokens.contains (strToLower (strTrim raw)) := by
    unfold is_hallucination
    rw [strTrim_idem]
  have hflush := AsrSession.flush_loaded_ok buffer lang raw
    (fun _ _ => Except.ok raw) hne rfl
  constructor
  · rintro (h | h)
    · rw [hflush, if_pos (by simp [h])]
    · rw [hflush, if_pos (by
        simp only [hkey]
        simp [Or.inr (show strToLower (strTrim raw) ∈ hallucinationTokens by simpa using h)])]
  · intro h1 h2
    rw [hflush, if_neg (by
      simp only [hkey]
      simp [h1, show strToLower (strTrim raw) ∉ hallucinationTokens by simpa using h2])]

/-- Witness for `asr_flush_filters_hallucinations`: the string
`"(pause) let me think"` contains a parenthesised marker but is not an exact
token match, so it yields one non-empty final segment; an exact (uppercase,
padded) token `"  [BLANK_AUDIO]  "` yields zero segments. -/
theorem asr_flush_filters_hallucinations_witness :
    ([(0:ℚ)] ≠ []) ∧
    strTrim "(pause) let me think" ≠ "" ∧
    hallucinationTokens.contains (strToLower (strTrim "(pause) let me think")) = false ∧
    AsrSession.flush ⟨[0], "en"⟩
        (EngineHolder.loaded fun _ _ => Except.ok "(pause) let me think") =
      (Except.ok [{ text := strTrim "(pause) let me think", is_final := true }],
       ⟨[], "en"⟩) ∧
    AsrSession.flush ⟨[0], "en"⟩
        (EngineHolder.loaded fun _ _ => Except.ok "  [BLANK_AUDIO]  ") =
      (Except.ok [], ⟨[], "en"⟩) :=
  ⟨by decide, by decide, by decide,
   (asr_flush_filters_hallucinations [0] "en" "(pause) let me think"
       (by decide)).2 (by decide) (by decide),
   (asr_flush_filters_hallucinations [0] "en" "  [BLANK_AUDIO]  "
       (by decide)).1 (Or.inr (by decide))⟩

/-- C4: a buffer longer than the 4-minute cap is truncated to exactly
`MAX_SAMPLES` samples, keeping the earliest ones (`List.take`), before the
backend is invoked — `flush` behaves exactly as if the session held the
truncated buffer; a buffer at or below the cap is left unchanged. -/
theorem asr_flush_truncates_to_cap (buffer : List ℚ) :
    (MAX_SAMPLES < buffer.length →
      truncatedBuffer buffer = buffer.take MAX_SAMPLES ∧
      (truncatedBuffer buffer).length = MAX_SAMPLES) ∧
    (buffer.length ≤ MAX_SAMPLES → truncatedBuffer buffer = buffer) ∧
    (∀ lang f,
      AsrSession.flush ⟨buffer, lang⟩ (EngineHolder.loaded f) =
        AsrSession.flush ⟨truncatedBuffer buffer, lang⟩ (EngineHolder.loaded f)) := by
  refine ⟨fun h => ⟨?_, ?_⟩, fun h => truncatedBuffer_of_le buffer h, fun lang f => ?_⟩
  · unfold truncatedBuffer
    rw [if_pos (by omega)]
  · rw [truncatedBuffer_length]
    omega
  · by_cases hb : buffer = []
    · subst hb
      rfl
    · unfold AsrSession.flush
      rw [if_neg (by simpa using hb),
        if_neg (by simpa using truncatedBuffer_ne_nil buffer hb)]
      simp only [truncatedBuffer_idem]

/-- Witness for `asr_flush_truncates_to_cap` on a buffer one sample over the
cap: it is truncated to exactly `MAX_SAMPLES` earliest samples. -/
theorem asr_flush_truncates_to_cap_witness :
    MAX_SAMPLES < (List.replicate (MAX_SAMPLES + 1) (0:ℚ)).length ∧
    truncatedBuffer (List.replicate (MAX_SAMPLES + 1) (0:ℚ)) =
      (List.replicate (MAX_SAMPLES + 1) (0:ℚ)).take MAX_SAMPLES ∧
    (truncatedBuffer (List.replicate (MAX_SAMPLES + 1) (0:ℚ))).length = MAX_SAMPLES :=
  ⟨by simp,
   ((asr_flush_truncates_to_cap _).1 (by simp)).1,
   ((asr_flush_truncates_to_cap _).1 (by simp)).2⟩

/-- C9: when `flush` fails — poisoned engine lock, no engine loaded, or
backend inference error — the session still holds the (cap-truncated) audio
buffer so a later flush can retry; the buffer is cleared only after the
backend call succeeds. -/
theorem asr_flush_error_keeps_buffer (buffer : List ℚ) (lang : String)
    (hne : buffer ≠ []) :
    (∀ msg, AsrSession.flush ⟨buffer, lang⟩ (EngineHolder.poisoned msg) =
      (Except.error (TranscribeError.Inference ("Lock poisoned: " ++ msg)),
       ⟨truncatedBuffer buffer, lang⟩)) ∧
    (AsrSession.flush ⟨buffer, lang⟩ EngineHolder.empty =
      (Except.error TranscribeError.NotLoaded, ⟨truncatedBuffer buffer, lang⟩)) ∧
    (∀ f e, f (truncatedBuffer buffer) lang = Except.error e →
      AsrSession.flush ⟨buffer, lang⟩ (EngineHolder.loaded f) =
        (Except.error e, ⟨truncatedBuffer buffer, lang⟩)) ∧
    (∀ f raw, f (truncatedBuffer buffer) lang = Except.ok raw →
      (AsrSession.flush ⟨buffer, lang⟩ (EngineHolder.loaded f)).2.audio_buffer = []) := by
  refine ⟨fun msg => ?_, ?_, fun f e hf => ?_, fun f raw hf => ?_⟩
  · unfold AsrSession.flush
    rw [if_neg (by simpa using hne)]
  · unfold AsrSession.flush
    rw [if_neg (by simpa using hne)]
  · unfold AsrSession.flush
    rw [if_neg (by simpa using hne)]
    simp only [hf]
  · rw [AsrSession.flush_loaded_ok buffer lang raw f hne hf]

/-- Witness for `asr_flush_error_keeps_buffer`: flushing a one-sample buffer
with no engine loaded fails with `NotLoaded` and keeps the sample. -/
theorem asr_flush_error_keeps_buffer_witness :
    ([(0:ℚ)] ≠ []) ∧
    AsrSession.flush ⟨[0], "en"⟩ EngineHolder.empty =
      (Except.error TranscribeError.NotLoaded, ⟨truncatedBuffer [0], "en"⟩) :=
  ⟨by decide, (asr_flush_error_keeps_buffer [0] "en" (by decide)).2.1⟩

/-- C10: `feed_samples` returns the empty segment list for every input and
every prior state; it only appends the samples to the audio buffer and
leaves the language untouched. -/
theorem asr_feed_samples_no_segments (s : AsrSession) (samples : List ℚ) :
    (s.feed_samples samples).1 = [] ∧
    (s.feed_samples samples).2.audio_buffer = s.audio_buffer ++ samples ∧
    (s.feed_samples samples).2.language = s.language :=
  ⟨rfl, rfl, rfl⟩

/-! ## Pre-speech ring buffer (`run_pipeline`, `crates/dikto-core/src/lib.rs`) -/

/-- `pre_speech_max = 16000` — 1 second at 16 kHz. -/
def PRE_SPEECH_MAX : Nat := 16000

/-- One iteration of the pre-speech buffering in `run_pipeline`:
`extend_from_slice` the drained samples, then `drain(..excess)` the oldest
samples beyond `pre_speech_max`. -/
def preSpeechPush (buf samples : List ℚ) : List ℚ :=
  let b := buf ++ samples
  if b.length > PRE_SPEECH_MAX then b.drop (b.length - PRE_SPEECH_MAX) else b

theorem preSpeechPush_eq_drop (buf samples : List ℚ) :
    preSpeechPush buf samples =
      (buf ++ samples).drop ((buf ++ samples).length - PRE_SPEECH_MAX) := by
  show (if (buf ++ samples).length > PRE_SPEECH_MAX
      then (buf ++ samples).drop ((buf ++ samples).length - PRE_SPEECH_MAX)
      else buf ++ samples) =
    (buf ++ samples).drop ((buf ++ samples).length - PRE_SPEECH_MAX)
  split
  · rfl
  · rw [show (buf ++ samples).length - PRE_SPEECH_MAX = 0 from by omega, List.drop_zero]

/-- Pushing onto an already-capped buffer keeps only the trailing
`PRE_SPEECH_MAX` samples of the whole stream. -/
theorem preSpeechPush_drop (t b : List ℚ) :
    preSpeechPush (t.drop (t.length - PRE_SPEECH_MAX)) b =
      (t ++ b).drop ((t ++ b).length - PRE_SPEECH_MAX) := by
  rw [preSpeechPush_eq_drop]
  have hd : t.length - PRE_SPEECH_MAX ≤ t.length := Nat.sub_le _ _
  have h1 : (t ++ b).drop (t.length - PRE_SPEECH_MAX) =
      t.drop (t.length - PRE_SPEECH_MAX) ++ b := by
    rw [List.drop_append_eq_append_drop, Nat.sub_eq_zero_of_le hd, List.drop_zero]
  rw [← h1, List.drop_drop]
  have harith : t.length - PRE_SPEECH_MAX +
      (((t ++ b).drop (t.length - PRE_SPEECH_MAX)).length - PRE_SPEECH_MAX) =
      (t ++ b).length - PRE_SPEECH_MAX := by
    simp only [List.length_drop, List.length_append]
    omega
  rw [harith]

theorem foldl_preSpeechPush_eq (batches : List (List ℚ)) (t : List ℚ) :
    List.foldl preSpeechPush (t.drop (t.length - PRE_SPEECH_MAX)) batches =
      (t ++ batches.flatten).drop
        ((t ++ batches.flatten).length - PRE_SPEECH_MAX) := by
  induction batches generalizing t with
  | nil => rw [List.foldl_nil, List.flatten_nil, List.append_nil]
  | cons b bs ih =>
      rw [List.foldl_cons, preSpeechPush_drop, ih (t ++ b),
        List.flatten_cons, ← List.append_assoc]

/-- C7: starting from an empty pre-speech buffer, after any sequence of
drained batches the buffer is exactly the trailing `PRE_SPEECH_MAX = 16000`
samples of everything fed (oldest samples dropped from the front), its
length is `min total 16000` — so it never exceeds 16000 and stays at exactly
16000 once the total has ever reached the cap — and each single push obeys
the same length bound. -/
theorem pre_speech_ring_buffer_bound (batches : List (List ℚ)) :
    List.foldl preSpeechPush [] batches =
      batches.flatten.drop (batches.flatten.length - PRE_SPEECH_MAX) ∧
    (List.foldl preSpeechPush [] batches).length =
      min batches.flatten.length PRE_SPEECH_MAX ∧
    (List.foldl preSpeechPush [] batches).length ≤ PRE_SPEECH_MAX ∧
    (∀ buf samples : List ℚ,
      (preSpeechPush buf samples).length =
        min (buf.length + samples.length) PRE_SPEECH_MAX) := by
  have h := foldl_preSpeechPush_eq batches []
  simp only [List.length_nil, Nat.zero_sub, List.drop_zero, List.nil_append] at h
  refine ⟨h, ?_, ?_, ?_⟩
  · rw [h]
    simp only [List.length_drop]
    omega
  · rw [h]
    simp only [List.length_drop]
    omega
  · intro buf samples
    rw [preSpeechPush_eq_drop]
    simp only [List.length_drop, List.length_append]
    omega

/-! ## Session background thread (`DiktoEngine::start_listening`,
`crates/dikto-core/src/lib.rs` lines 329–409)

The spawned thread is sequential code over a handful of fallible steps; it
is embedded as a function from the outcome of each step to the list of
`on_state_change` notifications it issues and the final value of the
`recording` flag (which is `true` when the thread starts). -/

/-- `enum RecordingState`. -/
inductive RecordingState where
  | Listening
  | Processing
  | Done (text : String)
  | Error (message : String)
  deriving DecidableEq, Repr

/-- The outcomes of `run_pipeline` that determine its state-change trace.
`run_pipeline` reports `Listening` as its first statement (line 565) and
reports `Processing` exactly when it reaches a flush — either on `SpeechEnd`
after speech (line 633) or after the stop/max-duration loop exit (line 674).
Failures before any flush (audio-capture start, VAD construction,
`process_chunk`) leave only `Listening` reported.  `Done`/`Error` are
reported by the spawning thread, not by `run_pipeline`. -/
inductive PipelineRun where
  | errBeforeFlush (msg : String)
  | errAtFlush (msg : String)
  | finished (text : String)
  deriving DecidableEq, Repr

/-- State changes reported from inside `run_pipeline`. -/
def runPipelineStates : PipelineRun → List RecordingState
  | PipelineRun.errBeforeFlush _ => [RecordingState.Listening]
  | PipelineRun.errAtFlush _ =>
      [RecordingState.Listening, RecordingState.Processing]
  | PipelineRun.finished _ =>
      [RecordingState.Listening, RecordingState.Processing]

/-- The `Result<String, DiktoError>` returned by `run_pipeline`. -/
def runPipelineResult : PipelineRun → Except String String
  | PipelineRun.errBeforeFlush m => Except.error m
  | PipelineRun.errAtFlush m => Except.error m
  | PipelineRun.finished t => Except.ok t

/-- The branch points of the thread body spawned by `start_listening`. -/
structure ThreadEnv where
  /-- The resident engine already matches the configured model, so
  `needs_load` is false. -/
  resident_matches : Bool
  /-- The `engine_holder.lock()` of the `needs_load` check succeeds. -/
  check_lock_ok : Bool
  /-- `AsrEngine::load` succeeds. -/
  load_ok : Bool
  load_err_msg : String
  /-- The `engine_holder.lock()` that stores the freshly loaded engine
  succeeds. -/
  store_lock_ok : Bool
  /-- The `engine_holder.lock()` at session creation succeeds. -/
  session_lock_ok : Bool
  /-- The engine holder still holds `Some(..)` at session creation (it can
  be emptied concurrently: `unload_model` does not check `recording`). -/
  engine_present : Bool
  run : PipelineRun
  /-- `some states`: the closure panicked after reporting `states`; the
  `catch_unwind` handler then runs. -/
  abort_trace : Option (List RecordingState)
  deriving DecidableEq, Repr

/-- The closure passed to `catch_unwind` (no panic).  Returns the reported
state changes and the final `recording` flag.  The early `return
Err(..)?` paths — poisoned locks and a vanished engine at session creation —
produce `Ok(Err(_))`, which line 403 silently ignores: no state change is
reported and the flag is left `true`. -/
def sessionThreadBody (env : ThreadEnv) : List RecordingState × Bool :=
  if !env.check_lock_ok then ([], true)
  else
    let loadStates : List RecordingState :=
      if !env.resident_matches then [RecordingState.Processing] else []
    if !env.resident_matches && !env.load_ok then
      (loadStates ++
        [RecordingState.Error ("Failed to load model: " ++ env.load_err_msg)],
       false)
    else if !env.resident_matches && !env.store_lock_ok then
      (loadStates, true)
    else if !env.session_lock_ok then
      (loadStates, true)
    else if !env.engine_present then
      (loadStates, true)
    else
      match runPipelineResult env.run with
      | Except.ok text =>
          (loadStates ++ runPipelineStates env.run ++ [RecordingState.Done text],
           false)
      | Except.error e =>
          (loadStates ++ runPipelineStates env.run ++ [RecordingState.Error e],
           false)

/-- The whole spawned thread: the closure under `catch_unwind`, whose panic
handler reports one `Error` and clears the flag. -/
def sessionThread (env : ThreadEnv) : List RecordingState × Bool :=
  match env.abort_trace with
  | some states =>
      (states ++ [RecordingState.Error "Internal error (thread panic)"], false)
  | none => sessionThreadBody env

/-- C5 (code bug): two reachable exit paths of the background thread report
no terminal state and leave the recording flag set.  On a poisoned engine
lock at the `needs_load` check, or when the engine holder was emptied by a
concurrent `unload_model` before session creation, the closure returns
`Err(DiktoError)` through `?`; `catch_unwind` yields `Ok(Err(_))`, which
line 403 (`if let Err(_panic) = result`) silently drops — contradicting the
spec's guarantee of exactly one terminal callback and a cleared flag on
every exit path. -/
theorem session_thread_silent_exit_bug :
    sessionThread
        { resident_matches := true, check_lock_ok := false, load_ok := true,
          load_err_msg := "", store_lock_ok := true, session_lock_ok := true,
          engine_present := true, run := PipelineRun.finished "",
          abort_trace := none } =
      ([], true) ∧
    sessionThread
        { resident_matches := true, check_lock_ok := true, load_ok := true,
          load_err_msg := "", store_lock_ok := true, session_lock_ok := true,
          engine_present := false, run := PipelineRun.finished "",
          abort_trace := none } =
      ([], true) :=
  ⟨rfl, rfl⟩

/-- A session that needs a lazy model load, where everything succeeds. -/
def envLazyLoadOk : ThreadEnv :=
  { resident_matches := false, check_lock_ok := true, load_ok := true,
    load_err_msg := "", store_lock_ok := true, session_lock_ok := true,
    engine_present := true, run := PipelineRun.finished "hi",
    abort_trace := none }

/-- C6 counterexample: a fully successful session that lazy-loads the model
reports `Processing` (the "Loading model..." notification, lib.rs line 340)
before `run_pipeline` reports its first `Listening` — so `Listening` is not
always the first reported state. -/
theorem session_processing_before_listening_cex :
    (sessionThread envLazyLoadOk).1 =
      [RecordingState.Processing, RecordingState.Listening,
       RecordingState.Processing, RecordingState.Done "hi"] ∧
    (sessionThread envLazyLoadOk).1.head? = some RecordingState.Processing ∧
    RecordingState.Processing ≠ RecordingState.Listening :=
  ⟨rfl, rfl, by decide⟩

/-- The state changes of a session whose pipeline actually ran:
`run_pipeline`'s own reports followed by the spawning thread's terminal
report. -/
def pipelineShape : PipelineRun → List RecordingState
  | PipelineRun.errBeforeFlush m =>
      [RecordingState.Listening, RecordingState.Error m]
  | PipelineRun.errAtFlush m =>
      [RecordingState.Listening, RecordingState.Processing,
       RecordingState.Error m]
  | PipelineRun.finished t =>
      [RecordingState.Listening, RecordingState.Processing,
       RecordingState.Done t]

/-- C6 (amended): provided the thread hits no lock failure, no concurrent
engine unload and no panic, the state changes of one session are strictly
sequential.  When the configured model is already resident the trace is
`Listening`, then — when the pipeline reached a flush — one `Processing`,
then exactly one terminal `Done` or `Error` as the last notification (an
early pipeline failure may follow `Listening` directly).  When a lazy load
is needed, one `Processing` (the loading notification) precedes that trace
if the load succeeds, and a failed load reports exactly `Processing` then
one terminal `Error` with no `Listening` at all.  In every case exactly one
terminal state ends the trace and the recording flag is cleared. -/
theorem session_states_sequential (env : ThreadEnv)
    (hchk : env.check_lock_ok = true)
    (hstore : env.store_lock_ok = true)
    (hsess : env.session_lock_ok = true)
    (heng : env.engine_present = true)
    (hpanic : env.abort_trace = none) :
    sessionThread env =
      (if env.resident_matches then (pipelineShape env.run, false)
       else if env.load_ok then
         (RecordingState.Processing :: pipelineShape env.run, false)
       else
         ([RecordingState.Processing,
           RecordingState.Error ("Failed to load model: " ++ env.load_err_msg)],
          false)) := by
  unfold sessionThread sessionThreadBody
  rw [hpanic]
  cases hres : env.resident_matches <;> cases hload : env.load_ok <;>
    cases hr : env.run <;>
    simp [hchk, hstore, hsess, heng, runPipelineStates, runPipelineResult,
      pipelineShape]

/-- A session whose model is already resident and whose pipeline finishes. -/
def envResident : ThreadEnv :=
  { resident_matches := true, check_lock_ok := true, load_ok := true,
    load_err_msg := "", store_lock_ok := true, session_lock_ok := true,
    engine_present := true, run := PipelineRun.finished "hello",
    abort_trace := none }

/-- Witness for `session_states_sequential`: with the model resident the
trace is `Listening, Processing, Done` and the flag ends cleared. -/
theorem session_states_sequential_witness :
    envResident.check_lock_ok = true ∧ envResident.load_ok = true ∧
    envResident.store_lock_ok = true ∧ envResident.session_lock_ok = true ∧
    envResident.engine_present = true ∧ envResident.abort_trace = none ∧
    sessionThread envResident =
      ([RecordingState.Listening, RecordingState.Processing,
        RecordingState.Done "hello"], false) :=
  ⟨rfl, rfl, rfl, rfl, rfl, rfl,
   by have h := session_states_sequential envResident rfl rfl rfl rfl rfl
      exact h⟩

end Dikto
